import Mathlib

/-!
Verification of the log4go logging core: a shallow embedding of the
dispatch engine (`intLogf`, `intLogJson`, `intLogc`, `Warnf`, ...), the
structured field model (`LogField`, its constructors, `mkAny`) and the
JSON/text encoder (`encodeJson`, `encodeString`, `safeAddString`),
together with theorems settling the specification claims.

Go strings are modelled as byte lists (`GoStr`), machine integers as
`Int`/`Nat` with explicit wrap-around casts, and Go's `interface%x7b%x7d`
dynamic values as the closed inductive `GoAny`.  Panics (failed type
assertions, out-of-range slice indexing) are modelled by `Option`.
-/

/-- Go strings are byte sequences; each element is a byte value. -/
abbrev GoStr := List Nat

/-- Bytes of an ASCII-only Lean string literal (used to write byte-list
literals readably; every use in this file is on pure-ASCII text, where
the character codes are exactly the UTF-8 bytes). -/
def ascii (s : String) : GoStr := s.data.map Char.toNat

/-- Fuel-driven digit loop for `natDigits` (the fuel, always at least
the digit count, only makes the recursion structural). -/
def natDigitsGo : Nat → Nat → GoStr
  | 0, _ => []
  | fuel + 1, n => if n < 10 then [0x30 + n] else natDigitsGo fuel (n / 10) ++ [0x30 + n % 10]

/-- Decimal digit bytes of a natural number, most significant first
(models `strconv.AppendUint` and the `%d` rendering of nonnegative
values). -/
def natDigits (n : Nat) : GoStr := natDigitsGo (n + 1) n

/-- Decimal rendering of a signed integer (models `strconv.AppendInt`). -/
def intDec (i : Int) : GoStr :=
  if i < 0 then 0x2D :: natDigits (-i).toNat else natDigits i.toNat

/-- Two's-complement reinterpretation of a natural number as a signed
`w`-bit integer (models Go's `intN(v)` conversion from an unsigned value
of the same width). -/
def toSigned (w : Nat) (v : Nat) : Int :=
  if v < 2 ^ (w - 1) then (v : Int) else (v : Int) - 2 ^ w

/-- Reinterpretation of a signed integer as an unsigned `w`-bit value
(models Go's `uintN(i)` conversion). -/
def toUnsigned (w : Nat) (i : Int) : Nat :=
  (i % (2 ^ w : Int)).toNat

/-- Truncating two's-complement cast of a signed integer to `w` bits
(models Go's `intN(i)` conversion from a wider signed value). -/
def wrapSigned (w : Nat) (i : Int) : Int :=
  (i + 2 ^ (w - 1)) % 2 ^ w - 2 ^ (w - 1)

/-- Uppercase hexadecimal digit byte, per the encoder's `Hex` table
`"0123456789ABCDEF"`. -/
def hexDigit (n : Nat) : Nat :=
  if n < 10 then 0x30 + n else 0x41 + (n - 10)

/-! ## Severity (log4go.go) -/

/-- The eight severity constants `FINEST .. CRITICAL` are the integers
`0 .. 7` (Go `type Level int`). -/
def FINEST : Int := 0
def FINE : Int := 1
def DEBUG : Int := 2
def TRACE : Int := 3
def INFO : Int := 4
def WARNING : Int := 5
def ERROR : Int := 6
def CRITICAL : Int := 7

/-- The `levelStrings` table from log4go.go. -/
def levelStrings : List GoStr :=
  [ascii "FNST", ascii "FINE", ascii "DEBG", ascii "TRAC",
   ascii "INFO", ascii "WARN", ascii "EROR", ascii "CRIT"]

/-- Go's `Level.String`: `if l < 0 || int(l) > len(levelStrings)`
returns `"UNKNOWN"`, otherwise indexes `levelStrings[int(l)]`.  The
index expression can be out of range (the guard uses `>` where the
table has `len = 8`); an out-of-range access panics, modelled by
`none`. -/
def levelString (l : Int) : Option GoStr :=
  if l < 0 ∨ l > 8 then some (ascii "UNKNOWN")
  else levelStrings.get? l.toNat

/-! ## LogField model (field list variant of part_001) -/

/-- The `FieldType` tag set. -/
inductive FieldType where
  | UnknownType
  | BoolType
  | IntType
  | Int32Type
  | Uint32Type
  | Int64Type
  | Uint64Type
  | Int8Type
  | Uint8Type
  | Float64Type
  | Float32Type
  | StringType
  | InterfaceType
deriving DecidableEq, Repr

/-- Dynamic (`interface`-typed) Go values, as a closed inductive over
the dynamic types the code inspects.  Float values are modelled
opaquely by the decimal text `strconv.AppendFloat` would produce for
them. -/
inductive GoAny where
  | goInt (v : Int)
  | goInt8 (v : Int)
  | goUint8 (v : Nat)
  | goInt32 (v : Int)
  | goUint32 (v : Nat)
  | goInt64 (v : Int)
  | goUint64 (v : Nat)
  | goStr (s : GoStr)
  | goBool (b : Bool)
  | goFloat32 (render : GoStr)
  | goFloat64 (render : GoStr)
  | goNil
deriving DecidableEq, Repr

/-- A `LogField` (part_001): key, tag, and the three storage slots. -/
structure LogField where
  key : GoStr
  type : FieldType
  integer : Int := 0
  string : GoStr := []
  interface : GoAny := .goNil
deriving DecidableEq, Repr

/-- `Bool(key, value)` field constructor. -/
def mkBool (key : GoStr) (value : Bool) : LogField :=
  { key := key, type := .BoolType, interface := .goBool value }

/-- `Uint32(key, value)` field constructor. -/
def mkUint32 (key : GoStr) (value : Nat) : LogField :=
  { key := key, type := .Uint32Type, integer := (value : Int) }

/-- `Int32(key, value)` field constructor. -/
def mkInt32 (key : GoStr) (value : Int) : LogField :=
  { key := key, type := .Int32Type, integer := value }

/-- `Uint8(key, value)` field constructor. -/
def mkUint8 (key : GoStr) (value : Nat) : LogField :=
  { key := key, type := .Uint8Type, integer := (value : Int) }

/-- `Int8(key, value)` field constructor. -/
def mkInt8 (key : GoStr) (value : Int) : LogField :=
  { key := key, type := .Int8Type, integer := value }

/-- `Uint64(key, value)` field constructor: the source stores
`int64(value)`, the two's-complement reinterpretation of the unsigned
64-bit value. -/
def mkUint64 (key : GoStr) (value : Nat) : LogField :=
  { key := key, type := .Uint64Type, integer := toSigned 64 value }

/-- `Int64(key, value)` field constructor. -/
def mkInt64 (key : GoStr) (value : Int) : LogField :=
  { key := key, type := .Int64Type, integer := value }

/-- `Int(key, value)` field constructor. -/
def mkInt (key : GoStr) (value : Int) : LogField :=
  { key := key, type := .IntType, integer := value }

/-- `Float32(key, value)` field constructor. -/
def mkFloat32 (key : GoStr) (value : GoStr) : LogField :=
  { key := key, type := .Float32Type, interface := .goFloat32 value }

/-- `Float64(key, value)` field constructor. -/
def mkFloat64 (key : GoStr) (value : GoStr) : LogField :=
  { key := key, type := .Float64Type, interface := .goFloat64 value }

/-- `String(key, value)` field constructor. -/
def mkString (key : GoStr) (value : GoStr) : LogField :=
  { key := key, type := .StringType, string := value }

/-- `Err(err)` field constructor: a text field under the fixed key
`"error"`, `"nil"` when the error is absent. -/
def mkErr (err : Option GoStr) : LogField :=
  { key := ascii "error", type := .StringType,
    string := match err with | none => ascii "nil" | some e => e }

/-- `Any(key, value)` (part_001): classifies the dynamic value by a
type switch — the seven supported integer widths collapse to `IntType`
(with the value stored via Go's `int64(...)` conversion), strings to
`StringType`, and everything else to `InterfaceType`. -/
def mkAny (key : GoStr) (value : GoAny) : LogField :=
  match value with
  | .goInt v => { key := key, type := .IntType, integer := v }
  | .goUint8 v => { key := key, type := .IntType, integer := (v : Int) }
  | .goInt8 v => { key := key, type := .IntType, integer := v }
  | .goUint32 v => { key := key, type := .IntType, integer := (v : Int) }
  | .goInt32 v => { key := key, type := .IntType, integer := v }
  | .goUint64 v => { key := key, type := .IntType, integer := toSigned 64 v }
  | .goInt64 v => { key := key, type := .IntType, integer := v }
  | .goStr s => { key := key, type := .StringType, string := s }
  | v => { key := key, type := .InterfaceType, interface := v }

/-! ## JSON encoder (part_000 encoder variant) -/

/-- The reusable byte-buffer encoder (`jsonEncoder`): a growable buffer
and the `left` separator flag. -/
structure JsonEncoder where
  buf : GoStr
  left : Bool
deriving DecidableEq, Repr

/-- `newJsonEncoder()`: empty buffer, zero-valued flag. -/
def newJsonEncoder : JsonEncoder := { buf := [], left := false }

/-- `appendByte`. -/
def JsonEncoder.appendByte (enc : JsonEncoder) (b : Nat) : JsonEncoder :=
  { enc with buf := enc.buf ++ [b] }

/-- `appendString`. -/
def JsonEncoder.appendString (enc : JsonEncoder) (str : GoStr) : JsonEncoder :=
  { enc with buf := enc.buf ++ str }

/-- `AppendLeft`: emits `"` and clears the flag when it is set,
otherwise emits `,"`. -/
def JsonEncoder.AppendLeft (enc : JsonEncoder) : JsonEncoder :=
  if enc.left = true then
    { enc with buf := enc.buf ++ [0x22], left := false }
  else
    enc.appendString (ascii ",\"")

/-- The Unicode replacement rune value `utf8.RuneError`. -/
def runeError : Nat := 0xFFFD

/-- Go's `utf8.DecodeRuneInString` applied to the non-empty byte
sequence `b0 :: rest`: returns the decoded rune and its encoded size;
every failure (invalid start byte, bad continuation byte, overlong
form, surrogate range, value above U+10FFFF, or truncated input)
returns `(RuneError, 1)`. -/
def decodeRune (b0 : Nat) (rest : GoStr) : Nat × Nat :=
  if b0 < 0x80 then (b0, 1)
  else if b0 < 0xC2 then (runeError, 1)
  else if b0 ≤ 0xDF then
    match rest with
    | b1 :: _ =>
      if 0x80 ≤ b1 ∧ b1 ≤ 0xBF then ((b0 % 0x20) * 0x40 + b1 % 0x40, 2)
      else (runeError, 1)
    | [] => (runeError, 1)
  else if b0 ≤ 0xEF then
    match rest with
    | b1 :: b2 :: _ =>
      if (if b0 = 0xE0 then 0xA0 else 0x80) ≤ b1 ∧
         b1 ≤ (if b0 = 0xED then 0x9F else 0xBF) ∧
         0x80 ≤ b2 ∧ b2 ≤ 0xBF then
        ((b0 % 0x10) * 0x1000 + (b1 % 0x40) * 0x40 + b2 % 0x40, 3)
      else (runeError, 1)
    | _ => (runeError, 1)
  else if b0 ≤ 0xF4 then
    match rest with
    | b1 :: b2 :: b3 :: _ =>
      if (if b0 = 0xF0 then 0x90 else 0x80) ≤ b1 ∧
         b1 ≤ (if b0 = 0xF4 then 0x8F else 0xBF) ∧
         0x80 ≤ b2 ∧ b2 ≤ 0xBF ∧ 0x80 ≤ b3 ∧ b3 ≤ 0xBF then
        ((b0 % 8) * 0x40000 + (b1 % 0x40) * 0x1000 + (b2 % 0x40) * 0x40 + b3 % 0x40, 4)
      else (runeError, 1)
    | _ => (runeError, 1)
  else (runeError, 1)

/-- `tryAddRuneSelf`: returns the updated encoder and whether the byte
was consumed.  Bytes at or above `utf8.RuneSelf` (0x80) are refused;
printable ASCII other than backslash and quote passes through; the
named controls and backslash/quote get two-character escapes; the
remaining bytes below 0x20 get `\u00XX` with uppercase hex digits. -/
def JsonEncoder.tryAddRuneSelf (enc : JsonEncoder) (b : Nat) : JsonEncoder × Bool :=
  if 0x80 ≤ b then (enc, false)
  else if 0x20 ≤ b ∧ b ≠ 0x5C ∧ b ≠ 0x22 then (enc.appendByte b, true)
  else if b = 0x5C ∨ b = 0x22 then ({ enc with buf := enc.buf ++ [0x5C, b] }, true)
  else if b = 0x0A then ({ enc with buf := enc.buf ++ [0x5C, 0x6E] }, true)
  else if b = 0x0D then ({ enc with buf := enc.buf ++ [0x5C, 0x72] }, true)
  else if b = 0x09 then ({ enc with buf := enc.buf ++ [0x5C, 0x74] }, true)
  else ({ enc with buf := enc.buf ++ [0x5C, 0x75, 0x30, 0x30, hexDigit (b / 16), hexDigit (b % 16)] }, true)

/-- The bytes of the literal `�` appended by `tryAddRuneError`. -/
def ufffdBytes : GoStr := [0x5C, 0x75, 0x66, 0x66, 0x66, 0x64]

/-- `safeAddString`: the byte-wise escaping loop.  Each step first
tries `tryAddRuneSelf`; otherwise it decodes a rune — a decode failure
(`RuneError` of size 1, the `tryAddRuneError` test) appends the
`�` escape and advances one byte, a success copies the encoded
bytes verbatim and advances by the rune size. -/
def JsonEncoder.safeGo : Nat → JsonEncoder → GoStr → JsonEncoder
  | _, enc, [] => enc
  | 0, enc, _ => enc
  | fuel + 1, enc, b :: rest =>
    match enc.tryAddRuneSelf b with
    | (enc1, true) => JsonEncoder.safeGo fuel enc1 rest
    | (_, false) =>
      let rs := decodeRune b rest
      if rs.1 = runeError ∧ rs.2 = 1 then
        JsonEncoder.safeGo fuel ({ enc with buf := enc.buf ++ ufffdBytes }) rest
      else
        JsonEncoder.safeGo fuel ({ enc with buf := enc.buf ++ (b :: rest).take rs.2 })
          (rest.drop (rs.2 - 1))

/-- `safeAddString` runs the loop over the whole input (each iteration
consumes at least one byte, so the input length bounds the iteration
count and the fuel never runs out). -/
def JsonEncoder.safeAddString (enc : JsonEncoder) (s : GoStr) : JsonEncoder :=
  JsonEncoder.safeGo s.length enc s

/-- `AddBool`. -/
def JsonEncoder.AddBool (enc : JsonEncoder) (key : GoStr) (value : Bool) : JsonEncoder :=
  (((enc.AppendLeft).safeAddString key).appendString (ascii "\": ")).appendString
    (if value then ascii "true" else ascii "false")

/-- `AddInt` (`strconv.AppendInt(buf, int64(value), 10)`). -/
def JsonEncoder.AddInt (enc : JsonEncoder) (key : GoStr) (value : Int) : JsonEncoder :=
  (((enc.AppendLeft).safeAddString key).appendString (ascii "\": ")).appendString (intDec value)

/-- `AddInt32`. -/
def JsonEncoder.AddInt32 (enc : JsonEncoder) (key : GoStr) (value : Int) : JsonEncoder :=
  (((enc.AppendLeft).safeAddString key).appendString (ascii "\": ")).appendString (intDec value)

/-- `AddUint32` (`strconv.AppendUint(buf, uint64(value), 10)`). -/
def JsonEncoder.AddUint32 (enc : JsonEncoder) (key : GoStr) (value : Nat) : JsonEncoder :=
  (((enc.AppendLeft).safeAddString key).appendString (ascii "\": ")).appendString (natDigits value)

/-- `AddInt64`. -/
def JsonEncoder.AddInt64 (enc : JsonEncoder) (key : GoStr) (value : Int) : JsonEncoder :=
  (((enc.AppendLeft).safeAddString key).appendString (ascii "\": ")).appendString (intDec value)

/-- `AddUint64`. -/
def JsonEncoder.AddUint64 (enc : JsonEncoder) (key : GoStr) (value : Nat) : JsonEncoder :=
  (((enc.AppendLeft).safeAddString key).appendString (ascii "\": ")).appendString (natDigits value)

/-- `AddInt8`. -/
def JsonEncoder.AddInt8 (enc : JsonEncoder) (key : GoStr) (value : Int) : JsonEncoder :=
  (((enc.AppendLeft).safeAddString key).appendString (ascii "\": ")).appendString (intDec value)

/-- `AddUint8`: the source takes an `int8` argument and renders
`uint64(value)` — a negative input wraps modulo `2^64`. -/
def JsonEncoder.AddUint8 (enc : JsonEncoder) (key : GoStr) (value : Int) : JsonEncoder :=
  (((enc.AppendLeft).safeAddString key).appendString (ascii "\": ")).appendString
    (natDigits (toUnsigned 64 value))

/-- `AddFloat32` (`strconv.AppendFloat(buf, float64(value), 'f', -1, 32)`):
float values are modelled opaquely by their rendered decimal text. -/
def JsonEncoder.AddFloat32 (enc : JsonEncoder) (key : GoStr) (render : GoStr) : JsonEncoder :=
  (((enc.AppendLeft).safeAddString key).appendString (ascii "\": ")).appendString render

/-- `AddFloat64`, modelled like `AddFloat32`. -/
def JsonEncoder.AddFloat64 (enc : JsonEncoder) (key : GoStr) (render : GoStr) : JsonEncoder :=
  (((enc.AppendLeft).safeAddString key).appendString (ascii "\": ")).appendString render

/-- `AddString`: key and value both pass through `safeAddString`; the
value is quoted. -/
def JsonEncoder.AddString (enc : JsonEncoder) (key value : GoStr) : JsonEncoder :=
  (((((enc.AppendLeft).safeAddString key).appendString (ascii "\": \"")).safeAddString value)).appendByte 0x22

/-- Generic rendering of a dynamic value, as produced by `fmt`'s `%v`
verb (modelled: floats by their stored decimal text, nil by the text
Go prints for a nil interface). -/
def renderAny : GoAny → GoStr
  | .goInt v => intDec v
  | .goInt8 v => intDec v
  | .goUint8 v => natDigits v
  | .goInt32 v => intDec v
  | .goUint32 v => natDigits v
  | .goInt64 v => intDec v
  | .goUint64 v => natDigits v
  | .goStr s => s
  | .goBool b => if b then ascii "true" else ascii "false"
  | .goFloat32 r => r
  | .goFloat64 r => r
  | .goNil => ascii "<nil>"

/-- Modelled from the spec: `jsonEncoder.AddInterface` is called by
`AddTo` for the arbitrary-fallback kind but its definition is not among
the source files under src/; per the spec each field kind renders via a
matching typed add operation on the encoder, so the fallback kind is
modelled as emitting the escaped key followed by a generic rendering of
the dynamic value. -/
def JsonEncoder.AddInterface (enc : JsonEncoder) (key : GoStr) (value : GoAny) : JsonEncoder :=
  (((enc.AppendLeft).safeAddString key).appendString (ascii "\": ")).appendString (renderAny value)

/-- `Field.AddTo` (part_001): dispatches on the tag to the matching
typed add operation, with the source's conversions of the stored
`int64` slot (`int32(f.Integer)`, `uint64(f.Integer)` etc.).  The
boolean and float cases type-assert the `interface` slot; a failed
assertion panics, modelled by `none`.  The unknown tag falls through
the switch and emits nothing. -/
def LogField.AddTo (f : LogField) (enc : JsonEncoder) : Option JsonEncoder :=
  match f.type with
  | .BoolType =>
    match f.interface with
    | .goBool b => some (enc.AddBool f.key b)
    | _ => none
  | .IntType => some (enc.AddInt f.key f.integer)
  | .Int32Type => some (enc.AddInt32 f.key (wrapSigned 32 f.integer))
  | .Uint32Type => some (enc.AddUint32 f.key (toUnsigned 32 f.integer))
  | .Int64Type => some (enc.AddInt64 f.key f.integer)
  | .Uint64Type => some (enc.AddUint64 f.key (toUnsigned 64 f.integer))
  | .Int8Type => some (enc.AddInt8 f.key (wrapSigned 8 f.integer))
  | .Uint8Type => some (enc.AddUint8 f.key (wrapSigned 8 f.integer))
  | .Float32Type =>
    match f.interface with
    | .goFloat32 r => some (enc.AddFloat32 f.key r)
    | _ => none
  | .Float64Type =>
    match f.interface with
    | .goFloat64 r => some (enc.AddFloat64 f.key r)
    | _ => none
  | .StringType => some (enc.AddString f.key f.string)
  | .InterfaceType => some (enc.AddInterface f.key f.interface)
  | .UnknownType => some enc

/-! ## Events (LogRecord) and time formatting -/

/-- Creation timestamps, by the components the encoder reads. -/
structure GoTime where
  year : Nat
  month : Nat
  day : Nat
  hour : Nat
  minute : Nat
  second : Nat
  nano : Nat
deriving DecidableEq, Repr

/-- Left-pad a decimal rendering with zeros to width `w` (Go `%0wd` on
a nonnegative value). -/
def pad (w n : Nat) : GoStr :=
  List.replicate (w - (natDigits n).length) 0x30 ++ natDigits n

/-- The fixed `"%04d-%02d-%02d %02d:%02d:%02d.%05d"` time rendering of
`EncodeJson` (the last component is `Nanosecond()/10000`). -/
def timeFmt (t : GoTime) : GoStr :=
  pad 4 t.year ++ [0x2D] ++ pad 2 t.month ++ [0x2D] ++ pad 2 t.day ++ [0x20] ++
  pad 2 t.hour ++ [0x3A] ++ pad 2 t.minute ++ [0x3A] ++ pad 2 t.second ++ [0x2E] ++
  pad 5 (t.nano / 10000)

/-- A `LogRecord` (log4go.go): the Event of one dispatch. -/
structure LogRecord where
  level : Int
  created : GoTime
  source : GoStr
  message : GoStr
  json : Bool := false
  fields : List LogField := []
deriving DecidableEq, Repr

/-- The field loop of `EncodeJson`: fields with the unknown tag are
skipped, the rest render via `AddTo` (propagating any panic). -/
def addFields (enc : JsonEncoder) : List LogField → Option JsonEncoder
  | [] => some enc
  | f :: fs =>
    if f.type = .UnknownType then addFields enc fs
    else
      match f.AddTo enc with
      | none => none
      | some e => addFields e fs

/-- `EncodeJson` (part_000 encoder): brace, quoted time, then the raw
message, severity code and call-site text each wrapped in bare quotes
(`"` + text + `"` — no escaping), then the fields, then the closing
brace and newline; returns the buffer contents as the wire line. -/
def encodeJson (enc : JsonEncoder) (record : LogRecord) : Option GoStr :=
  let e1 := (enc.appendByte 0x7B).appendString (ascii "\"time\":")
  let e2 := e1.appendString ([0x22] ++ timeFmt record.created ++ [0x22])
  let e3 := (e2.appendString (ascii ",\"message\":")).appendString
    ([0x22] ++ record.message ++ [0x22])
  match levelString record.level with
  | none => none
  | some lv =>
    let e4 := (e3.appendString (ascii ",\"level\":")).appendString ([0x22] ++ lv ++ [0x22])
    let e5 := (e4.appendString (ascii ",\"file\":")).appendString
      ([0x22] ++ record.source ++ [0x22])
    match addFields e5 record.fields with
    | none => none
    | some e6 => some (((e6.appendByte 0x7D).appendByte 0x0A).buf)

/-! ## fmt.Sprintf model and EncodeString -/

/-- Arguments collected for one `fmt.Sprintf` call. -/
inductive FmtArg where
  | int (i : Int)
  | str (s : GoStr)
  | any (v : GoAny)
deriving DecidableEq, Repr

/-- Rendering of one verb applied to one argument.  The verbs the
encoder emits (`%d`, `%s`, `%t`, `%v`) are modelled exactly on the
matching argument kinds; a kind mismatch renders as an error marker
(Go prints a `%!verb(...)` notice there). -/
def verbRender (v : Nat) (a : FmtArg) : GoStr :=
  if v = 0x64 then
    match a with
    | .int i => intDec i
    | _ => [0x25, 0x21, v] ++ ascii "(BADVERB)"
  else if v = 0x73 then
    match a with
    | .str s => s
    | _ => [0x25, 0x21, v] ++ ascii "(BADVERB)"
  else if v = 0x74 then
    match a with
    | .any (.goBool b) => if b then ascii "true" else ascii "false"
    | _ => [0x25, 0x21, v] ++ ascii "(BADVERB)"
  else if v = 0x76 then
    match a with
    | .int i => intDec i
    | .str s => s
    | .any x => renderAny x
  else [0x25, 0x21, v] ++ ascii "(BADVERB)"

/-- `fmt.Sprintf`, modelled for the fragment the code exercises:
literal bytes pass through, `%` followed by a verb consumes the next
argument, missing arguments and leftover arguments produce Go's
error-notice markers. -/
def sprintf : GoStr → List FmtArg → GoStr
  | [], args => if args.isEmpty then [] else ascii "%!(EXTRA)"
  | b :: rest, args =>
    if b = 0x25 then
      match rest, args with
      | [], _ => ascii "%!(NOVERB)"
      | v :: rest1, a :: args1 => verbRender v a ++ sprintf rest1 args1
      | v :: rest1, [] => [0x25, 0x21, v] ++ ascii "(MISSING)" ++ sprintf rest1 []
    else b :: sprintf rest args

/-- The per-field body of the `EncodeString` loop: appends
`key` `:` and a placeholder to the format buffer and pushes the typed
argument (`%d` with the raw `int64` slot for every integer kind, `%s`
for text, `%t` for booleans, `%v` otherwise). -/
def encodeStringStep (p : JsonEncoder × List FmtArg) (f : LogField) : JsonEncoder × List FmtArg :=
  if f.type = .UnknownType then p
  else
    let e := p.1.appendString (f.key ++ [0x3A])
    match f.type with
    | .Int32Type | .Uint32Type | .Int8Type | .Uint8Type | .Int64Type | .Uint64Type | .IntType =>
      ((e.appendString (ascii "%d")).appendByte 0x20, p.2 ++ [.int f.integer])
    | .StringType =>
      ((e.appendString (ascii "%s")).appendByte 0x20, p.2 ++ [.str f.string])
    | .BoolType =>
      ((e.appendString (ascii "%t")).appendByte 0x20, p.2 ++ [.any f.interface])
    | _ =>
      ((e.appendString (ascii "%v")).appendByte 0x20, p.2 ++ [.any f.interface])

/-- `EncodeString` (part_000 encoder): with no fields the message is
returned verbatim; otherwise the message, a space, and
`key:placeholder ` per non-unknown field are accumulated in the
buffer, and the whole buffer is then run through `fmt.Sprintf` with
the collected arguments. -/
def encodeString (enc : JsonEncoder) (record : LogRecord) : GoStr :=
  if record.fields.length ≤ 0 then record.message
  else
    let e := (enc.appendString record.message).appendByte 0x20
    let pa := record.fields.foldl encodeStringStep (e, [])
    sprintf pa.1.buf pa.2

/-! ## Logger dispatch engine (log4go.go) -/

/-- A `Filter` (named `LogFilter` here to avoid clashing with Mathlib): the binding's minimum level and its writer capability,
identified opaquely. -/
structure LogFilter where
  level : Int
  writerId : Nat
deriving DecidableEq, Repr

/-- A `Logger`: the name-to-Filter map, modelled as an association
list (iteration order of the Go map is unspecified; the list fixes
one order). -/
abbrev Logger := List (String × LogFilter)

/-- Observable side effects of one dispatch call, in execution order:
call-site resolution (`runtime.Caller`), message formatting
(`fmt.Sprintf`), and closure invocation. -/
inductive Effect where
  | caller
  | format
  | closure
deriving DecidableEq, Repr

/-- One `LogWrite` invocation: the receiving binding's name, the
allocation identity of the record passed (distinct Go allocations get
distinct identifiers within one call), and the record's contents. -/
structure Write where
  name : String
  recId : Nat
  record : LogRecord
deriving DecidableEq, Repr

/-- The outcome of one dispatch call: the effects performed and the
writer invocations made, each in execution order. -/
structure DispatchOut where
  effects : List Effect
  writes : List Write
deriving DecidableEq, Repr

/-- The skip check shared by all dispatch shapes: skip iff no filter's
level admits the severity (`lvl >= filt.Level` for no filter). -/
def skipAll (log : Logger) (lvl : Int) : Bool :=
  log.all fun nf => lvl < nf.2.level

/-- The bindings whose threshold admits the severity (`lvl >= filt.Level`),
in iteration order. -/
def admitted (log : Logger) (lvl : Int) : Logger :=
  log.filter fun nf => nf.2.level ≤ lvl

/-- Writer invocations for a fan-out that passes one shared record
(allocated once, identity `0`) to every admitting binding. -/
def fanOutShared (log : Logger) (lvl : Int) (r : LogRecord) : List Write :=
  (admitted log lvl).map fun nf => { name := nf.1, recId := 0, record := r }

/-- Writer invocations for a fan-out that allocates a fresh record per
admitting binding (`&LogRecord%x7b...%x7d` inside the loop): identical
contents, distinct identities `i, i+1, ...`. -/
def fanOutFresh (i : Nat) (r : LogRecord) : Logger → List Write
  | [] => []
  | nf :: rest => { name := nf.1, recId := i, record := r } :: fanOutFresh (i + 1) r rest

/-- `intLogf`: skip check, then caller resolution (failure yields an
empty source), then formatting only when arguments are present, then
one shared record fanned out to every admitting binding. -/
def intLogf (log : Logger) (lvl : Int) (caller : Option GoStr) (now : GoTime)
    (format : GoStr) (args : List FmtArg) : DispatchOut :=
  if skipAll log lvl then { effects := [], writes := [] }
  else
    let src := caller.getD []
    let msg := if args.length > 0 then sprintf format args else format
    let r : LogRecord := { level := lvl, created := now, source := src, message := msg }
    { effects := if args.length > 0 then [.caller, .format] else [.caller],
      writes := fanOutShared log lvl r }

/-- `intLogJson`: skip check, caller resolution, one shared timestamp,
then a fresh record allocated inside the loop for every admitting
binding. -/
def intLogJson (log : Logger) (lvl : Int) (caller : Option GoStr) (now : GoTime)
    (message : GoStr) (filed : List LogField) : DispatchOut :=
  if skipAll log lvl then { effects := [], writes := [] }
  else
    let src := caller.getD []
    let r : LogRecord := { level := lvl, created := now, source := src,
                           message := message, json := true, fields := filed }
    { effects := [.caller], writes := fanOutFresh 0 r (admitted log lvl) }

/-- `intLogc`: skip check, caller resolution, the closure invoked
exactly once for the message, one shared record fanned out. -/
def intLogc (log : Logger) (lvl : Int) (caller : Option GoStr) (now : GoTime)
    (closure : Unit → GoStr) : DispatchOut :=
  if skipAll log lvl then { effects := [], writes := [] }
  else
    let src := caller.getD []
    let r : LogRecord := { level := lvl, created := now, source := src,
                           message := closure () }
    { effects := [.caller, .closure], writes := fanOutShared log lvl r }

/-- `Warnf`: formats eagerly — `intLogf(WARNING, fmt.Sprintf(arg0, args...))`
runs the Sprintf at the call site before any skip check. -/
def Warnf (log : Logger) (caller : Option GoStr) (now : GoTime)
    (arg0 : GoStr) (args : List FmtArg) : DispatchOut :=
  let inner := intLogf log WARNING caller now (sprintf arg0 args) []
  { effects := .format :: inner.effects, writes := inner.writes }

/-- `Errorf`: same eager formatting as `Warnf`, at the error level. -/
def Errorf (log : Logger) (caller : Option GoStr) (now : GoTime)
    (arg0 : GoStr) (args : List FmtArg) : DispatchOut :=
  let inner := intLogf log ERROR caller now (sprintf arg0 args) []
  { effects := .format :: inner.effects, writes := inner.writes }

/-- `Criticalf`: same eager formatting as `Warnf`, at the critical
level. -/
def Criticalf (log : Logger) (caller : Option GoStr) (now : GoTime)
    (arg0 : GoStr) (args : List FmtArg) : DispatchOut :=
  let inner := intLogf log CRITICAL caller now (sprintf arg0 args) []
  { effects := .format :: inner.effects, writes := inner.writes }

/-! ## Claim-side characterizations -/

/-- Claim-side single-byte rendering for bytes below 0x80, as the
escaping contract states it: printable ASCII except backslash and
quote unchanged; backslash, quote, newline, carriage return and tab as
two-character escapes; every other byte below 0x20 as `\u00XX`. -/
def escByte (b : Nat) : GoStr :=
  if 0x20 ≤ b ∧ b ≠ 0x5C ∧ b ≠ 0x22 then [b]
  else if b = 0x5C ∨ b = 0x22 then [0x5C, b]
  else if b = 0x0A then [0x5C, 0x6E]
  else if b = 0x0D then [0x5C, 0x72]
  else if b = 0x09 then [0x5C, 0x74]
  else [0x5C, 0x75, 0x30, 0x30, hexDigit (b / 16), hexDigit (b % 16)]

/-- Claim-side UTF-8 well-formedness: `some n` when a valid `n`-byte
multi-byte UTF-8 sequence (shortest form, no surrogates, at most
U+10FFFF) starts at `b0 :: rest`; `none` when decoding fails at
`b0`. -/
def utf8SeqLen (b0 : Nat) (rest : GoStr) : Option Nat :=
  if 0xC2 ≤ b0 ∧ b0 ≤ 0xDF then
    match rest with
    | b1 :: _ => if 0x80 ≤ b1 ∧ b1 ≤ 0xBF then some 2 else none
    | [] => none
  else if 0xE0 ≤ b0 ∧ b0 ≤ 0xEF then
    match rest with
    | b1 :: b2 :: _ =>
      if (if b0 = 0xE0 then 0xA0 else 0x80) ≤ b1 ∧
         b1 ≤ (if b0 = 0xED then 0x9F else 0xBF) ∧
         0x80 ≤ b2 ∧ b2 ≤ 0xBF then some 3 else none
    | _ => none
  else if 0xF0 ≤ b0 ∧ b0 ≤ 0xF4 then
    match rest with
    | b1 :: b2 :: b3 :: _ =>
      if (if b0 = 0xF0 then 0x90 else 0x80) ≤ b1 ∧
         b1 ≤ (if b0 = 0xF4 then 0x8F else 0xBF) ∧
         0x80 ≤ b2 ∧ b2 ≤ 0xBF ∧ 0x80 ≤ b3 ∧ b3 ≤ 0xBF then some 4 else none
    | _ => none
  else none

/-- Claim-side escaping of a whole byte sequence: ASCII bytes via
`escByte`, valid multi-byte UTF-8 sequences copied unchanged, and the
replacement-character escape at every byte where decoding fails. -/
def escapeSpec : GoStr → GoStr
  | [] => []
  | b :: rest =>
    if b < 0x80 then escByte b ++ escapeSpec rest
    else
      match utf8SeqLen b rest with
      | some n => (b :: rest).take n ++ escapeSpec (rest.drop (n - 1))
      | none => ufffdBytes ++ escapeSpec rest
  termination_by s => s.length
  decreasing_by
    all_goals simp
    omega

/-! ## Helper lemmas: safeAddString vs escapeSpec -/

theorem tryAddRuneSelf_low (enc : JsonEncoder) (b : Nat) (hb : b < 0x80) :
    enc.tryAddRuneSelf b = ({ enc with buf := enc.buf ++ escByte b }, true) := by
  have h0 : ¬ 0x80 ≤ b := by omega
  simp only [JsonEncoder.tryAddRuneSelf, escByte, h0, if_false]
  split_ifs <;>
    simp [JsonEncoder.appendByte]

theorem tryAddRuneSelf_high (enc : JsonEncoder) (b : Nat) (hb : 0x80 ≤ b) :
    enc.tryAddRuneSelf b = (enc, false) := by
  simp [JsonEncoder.tryAddRuneSelf, hb]

set_option maxHeartbeats 2000000 in
theorem decodeRune_invalid (b : Nat) (rest : GoStr) (hb : 0x80 ≤ b)
    (h : utf8SeqLen b rest = none) : decodeRune b rest = (runeError, 1) := by
  rcases rest with _ | ⟨b1, _ | ⟨b2, _ | ⟨b3, rest3⟩⟩⟩ <;>
    · simp only [utf8SeqLen] at h
      simp only [decodeRune]
      split_ifs at h ⊢ <;> first | rfl | omega

set_option maxHeartbeats 2000000 in
theorem decodeRune_valid (b : Nat) (rest : GoStr) (n : Nat)
    (h : utf8SeqLen b rest = some n) :
    (decodeRune b rest).2 = n ∧ 2 ≤ n := by
  rcases rest with _ | ⟨b1, _ | ⟨b2, _ | ⟨b3, rest3⟩⟩⟩ <;>
    · simp only [utf8SeqLen] at h
      split_ifs at h <;>
        first
        | exact Option.noConfusion h
        | (injection h with h
           subst h
           simp only [decodeRune]
           split_ifs <;> first | exact ⟨rfl, by omega⟩ | omega)

theorem safeGo_eq (fuel : Nat) : ∀ (s : GoStr), s.length ≤ fuel → ∀ (enc : JsonEncoder),
    JsonEncoder.safeGo fuel enc s = { buf := enc.buf ++ escapeSpec s, left := enc.left } := by
  induction fuel with
  | zero =>
    intro s hs enc
    have : s = [] := List.length_eq_zero.mp (Nat.le_zero.mp hs)
    subst this
    simp [JsonEncoder.safeGo, escapeSpec]
  | succ n ih =>
    intro s hs enc
    match s with
    | [] => simp [JsonEncoder.safeGo, escapeSpec]
    | b :: rest =>
      have hlen : rest.length ≤ n := by
        simp only [List.length_cons] at hs
        omega
      by_cases hb : b < 0x80
      · rw [JsonEncoder.safeGo, tryAddRuneSelf_low enc b hb, escapeSpec, if_pos hb]
        simp [ih rest hlen]
      · have hb1 : 0x80 ≤ b := by omega
        rw [JsonEncoder.safeGo, escapeSpec, if_neg hb]
        cases hu : utf8SeqLen b rest with
        | none =>
          have hd := decodeRune_invalid b rest hb1 hu
          simp [tryAddRuneSelf_high enc b hb1, hd, hu, ih rest hlen]
        | some m =>
          obtain ⟨hd2, hm⟩ := decodeRune_valid b rest m hu
          have hcond : ¬((decodeRune b rest).1 = runeError ∧ (decodeRune b rest).2 = 1) := by
            intro hc
            omega
          have hdl : (rest.drop (m - 1)).length ≤ n := by
            simp only [List.length_drop]
            omega
          simp [tryAddRuneSelf_high enc b hb1, hu, hcond, hd2, ih (rest.drop (m - 1)) hdl]
          intro _ hm1
          omega

theorem safeAddString_eq (enc : JsonEncoder) (s : GoStr) :
    enc.safeAddString s = { buf := enc.buf ++ escapeSpec s, left := enc.left } :=
  safeGo_eq s.length s le_rfl enc

theorem toUnsigned_toSigned (v : Nat) (h : v < 2 ^ 64) :
    toUnsigned 64 (toSigned 64 v) = v := by
  unfold toSigned toUnsigned
  split_ifs <;> omega

/-! ## Claim theorems -/

/-- C4: for every input string, the safe string-escaping routine
appends exactly the claim-side rendering: ASCII bytes at or above 0x20
other than backslash and quote unchanged; backslash, quote, newline,
carriage return and tab as two-character escapes; other bytes below
0x20 as `\u00XX`; valid multi-byte UTF-8 sequences unchanged; the
replacement-character escape at every byte where UTF-8 decoding fails
(and the separator flag is untouched). -/
theorem c4_safe_add_string_escapes (enc : JsonEncoder) (s : GoStr) :
    enc.safeAddString s = { buf := enc.buf ++ escapeSpec s, left := enc.left } :=
  safeAddString_eq enc s

/-- C7: rendering a severity renders the eight defined levels to their
four-character codes and every out-of-range rank (below 0 or above 7)
to "UNKNOWN" — except that the code's guard admits rank 8, whose table
access panics (modelled by `none`): the rendering is not total. -/
theorem c7_level_string_panics_at_8 (l : Int) :
    (l < 0 ∨ l > 8 → levelString l = some (ascii "UNKNOWN")) ∧
    levelString 8 = none ∧
    levelString FINEST = some (ascii "FNST") ∧
    levelString FINE = some (ascii "FINE") ∧
    levelString DEBUG = some (ascii "DEBG") ∧
    levelString TRACE = some (ascii "TRAC") ∧
    levelString INFO = some (ascii "INFO") ∧
    levelString WARNING = some (ascii "WARN") ∧
    levelString ERROR = some (ascii "EROR") ∧
    levelString CRITICAL = some (ascii "CRIT") := by
  refine ⟨fun h => ?_, by decide, by decide, by decide, by decide, by decide,
    by decide, by decide, by decide, by decide⟩
  rw [levelString, if_pos h]

/-- Witness for C7's hypothesis-bearing conjunct, at rank -1. -/
theorem c7_witness :
    ((-1 : Int) < 0 ∨ (-1 : Int) > 8) ∧ levelString (-1) = some (ascii "UNKNOWN") :=
  ⟨Or.inl (by decide), (c7_level_string_panics_at_8 (-1)).1 (Or.inl (by decide))⟩

/-- C8: the any-to-field constructor classifies each supported integer
width (int, int8, uint8, int32, uint32, int64, uint64) into the
generic integer kind with the value stored in the signed 64-bit slot,
text into the text kind, and every other dynamic type — booleans,
floats, nil — into the arbitrary-fallback kind holding the value. -/
theorem c8_any_classification (key : GoStr) :
    (∀ v : Int, mkAny key (.goInt v) = { key := key, type := .IntType, integer := v }) ∧
    (∀ v : Int, mkAny key (.goInt8 v) = { key := key, type := .IntType, integer := v }) ∧
    (∀ v : Nat, mkAny key (.goUint8 v) = { key := key, type := .IntType, integer := (v : Int) }) ∧
    (∀ v : Int, mkAny key (.goInt32 v) = { key := key, type := .IntType, integer := v }) ∧
    (∀ v : Nat, mkAny key (.goUint32 v) = { key := key, type := .IntType, integer := (v : Int) }) ∧
    (∀ v : Int, mkAny key (.goInt64 v) = { key := key, type := .IntType, integer := v }) ∧
    (∀ v : Nat, mkAny key (.goUint64 v) = { key := key, type := .IntType, integer := toSigned 64 v }) ∧
    (∀ s : GoStr, mkAny key (.goStr s) = { key := key, type := .StringType, string := s }) ∧
    (∀ b : Bool, mkAny key (.goBool b) = { key := key, type := .InterfaceType, interface := .goBool b }) ∧
    (∀ r : GoStr, mkAny key (.goFloat32 r) = { key := key, type := .InterfaceType, interface := .goFloat32 r }) ∧
    (∀ r : GoStr, mkAny key (.goFloat64 r) = { key := key, type := .InterfaceType, interface := .goFloat64 r }) ∧
    mkAny key .goNil = { key := key, type := .InterfaceType, interface := .goNil } :=
  ⟨fun _ => rfl, fun _ => rfl, fun _ => rfl, fun _ => rfl, fun _ => rfl, fun _ => rfl,
   fun _ => rfl, fun _ => rfl, fun _ => rfl, fun _ => rfl, fun _ => rfl, rfl⟩

/-- C10: for every uint64 value, including those above 2^63 - 1, the
field built by the Uint64 constructor renders in JSON mode with
exactly the decimal digits of the original value: the stored signed
64-bit intermediate is cast back to uint64 by the renderer and loses
nothing. -/
theorem c10_uint64_roundtrip (key : GoStr) (v : Nat) (enc : JsonEncoder) (h : v < 2 ^ 64) :
    (mkUint64 key v).AddTo enc =
      some ((((enc.AppendLeft).safeAddString key).appendString
        (ascii "\": ")).appendString (natDigits v)) := by
  simp [mkUint64, LogField.AddTo, JsonEncoder.AddUint64, toUnsigned_toSigned v h]

/-- Witness for C10 at the value 2^63, which exceeds 2^63 - 1. -/
theorem c10_witness :
    (2 ^ 63 : Nat) < 2 ^ 64 ∧
    (mkUint64 (ascii "k") (2 ^ 63)).AddTo newJsonEncoder =
      some ((((newJsonEncoder.AppendLeft).safeAddString (ascii "k")).appendString
        (ascii "\": ")).appendString (natDigits (2 ^ 63))) :=
  ⟨by norm_num, c10_uint64_roundtrip (ascii "k") (2 ^ 63) newJsonEncoder (by norm_num)⟩

/-! ## Helper lemmas: dispatch -/

/-- A fixed concrete timestamp for concrete evaluations. -/
def t0 : GoTime := ⟨2024, 1, 2, 3, 4, 5, 67890000⟩

theorem skipAll_admitted (log : Logger) (lvl : Int) (h : skipAll log lvl = true) :
    admitted log lvl = [] := by
  unfold skipAll at h
  unfold admitted
  rw [List.filter_eq_nil_iff]
  intro nf hm
  have := List.all_eq_true.mp h nf hm
  simp at this ⊢
  omega

theorem nodup_assoc_eq {log : Logger} (hnd : (log.map Prod.fst).Nodup)
    {n : String} {f f' : LogFilter} (h1 : (n, f) ∈ log) (h2 : (n, f') ∈ log) : f = f' := by
  induction log with
  | nil => cases h1
  | cons hd tl ih =>
    rw [List.map_cons, List.nodup_cons] at hnd
    rcases List.mem_cons.mp h1 with he1 | hm1 <;> rcases List.mem_cons.mp h2 with he2 | hm2
    · have h12 : (n, f) = (n, f') := he1.trans he2.symm
      exact ((Prod.mk.injEq _ _ _ _).mp h12).2
    · exfalso
      apply hnd.1
      have hn : n ∈ tl.map Prod.fst := by
        simpa using List.mem_map_of_mem Prod.fst hm2
      rw [← he1]
      exact hn
    · exfalso
      apply hnd.1
      have hn : n ∈ tl.map Prod.fst := by
        simpa using List.mem_map_of_mem Prod.fst hm1
      rw [← he2]
      exact hn
    · exact ih hnd.2 hm1 hm2

theorem name_mem_admitted (log : Logger) (lvl : Int)
    (hnd : (log.map Prod.fst).Nodup) (n : String) (f : LogFilter)
    (hmem : (n, f) ∈ log) :
    n ∈ (admitted log lvl).map Prod.fst ↔ f.level ≤ lvl := by
  constructor
  · intro h
    obtain ⟨nf, hnf, he⟩ := List.mem_map.mp h
    have hmem2 := List.mem_filter.mp hnf
    have : nf = (n, nf.2) := by
      rw [← he]
    rw [this] at hmem2
    have := nodup_assoc_eq hnd hmem2.1 hmem
    rw [← this]
    simpa using hmem2.2
  · intro h
    apply List.mem_map.mpr
    refine ⟨(n, f), List.mem_filter.mpr ⟨hmem, by simpa using h⟩, rfl⟩

theorem fanOutShared_names (log : Logger) (lvl : Int) (r : LogRecord) :
    (fanOutShared log lvl r).map Write.name = (admitted log lvl).map Prod.fst := by
  unfold fanOutShared
  rw [List.map_map]
  rfl

theorem fanOutFresh_names (r : LogRecord) :
    ∀ (i : Nat) (l : Logger), (fanOutFresh i r l).map Write.name = l.map Prod.fst := by
  intro i l
  induction l generalizing i with
  | nil => rfl
  | cons hd tl ih => simp [fanOutFresh, ih]

theorem fanOutFresh_record (r : LogRecord) :
    ∀ (i : Nat) (l : Logger), ∀ w ∈ fanOutFresh i r l, w.record = r := by
  intro i l
  induction l generalizing i with
  | nil => intro w hw; cases hw
  | cons hd tl ih =>
    intro w hw
    rcases List.mem_cons.mp hw with he | hm
    · rw [he]
    · exact ih (i + 1) w hm

theorem fanOutFresh_recIds (r : LogRecord) :
    ∀ (i : Nat) (l : Logger), (fanOutFresh i r l).map Write.recId = List.range' i l.length := by
  intro i l
  induction l generalizing i with
  | nil => rfl
  | cons hd tl ih => simp [fanOutFresh, List.range', ih]

theorem intLogf_names (log : Logger) (lvl : Int) (caller : Option GoStr) (now : GoTime)
    (format : GoStr) (args : List FmtArg) :
    ((intLogf log lvl caller now format args).writes).map Write.name =
      (admitted log lvl).map Prod.fst := by
  unfold intLogf
  split_ifs with h h2 <;>
    first
    | simp [skipAll_admitted log lvl h]
    | exact fanOutShared_names log lvl _

theorem intLogJson_names (log : Logger) (lvl : Int) (caller : Option GoStr) (now : GoTime)
    (message : GoStr) (filed : List LogField) :
    ((intLogJson log lvl caller now message filed).writes).map Write.name =
      (admitted log lvl).map Prod.fst := by
  unfold intLogJson
  split_ifs with h
  · simp [skipAll_admitted log lvl h]
  · exact fanOutFresh_names _ 0 (admitted log lvl)

theorem exists_write_name (ws : List Write) (n : String) :
    (∃ w ∈ ws, w.name = n) ↔ n ∈ ws.map Write.name := by
  simp [List.mem_map]

/-- C1: for every logger, every registered binding with threshold T and
every dispatch at severity S (format-style `intLogf` and structured
`intLogJson`): the binding's writer is invoked iff S is at least T, and
when S is below every registered threshold the call performs zero
writer invocations. -/
theorem c1_threshold_filtering (log : Logger) (lvl : Int) (caller : Option GoStr)
    (now : GoTime) (format : GoStr) (args : List FmtArg) (message : GoStr)
    (filed : List LogField) (hnd : (log.map Prod.fst).Nodup)
    (n : String) (f : LogFilter) (hmem : (n, f) ∈ log) :
    ((∃ w ∈ (intLogf log lvl caller now format args).writes, w.name = n) ↔ f.level ≤ lvl) ∧
    ((∃ w ∈ (intLogJson log lvl caller now message filed).writes, w.name = n) ↔ f.level ≤ lvl) ∧
    ((∀ nf ∈ log, lvl < nf.2.level) →
      (intLogf log lvl caller now format args).writes = [] ∧
      (intLogJson log lvl caller now message filed).writes = []) := by
  refine ⟨?_, ?_, fun hall => ?_⟩
  · rw [exists_write_name, intLogf_names]
    exact name_mem_admitted log lvl hnd n f hmem
  · rw [exists_write_name, intLogJson_names]
    exact name_mem_admitted log lvl hnd n f hmem
  · have hskip : skipAll log lvl = true := by
      apply List.all_eq_true.mpr
      intro nf hnf
      simpa using hall nf hnf
    constructor <;> simp [intLogf, intLogJson, hskip]

/-- Witness for C1: a single binding "out" at DEBUG, dispatch at INFO —
the writer is reached on both paths. -/
theorem c1_witness :
    (((([("out", ⟨DEBUG, 0⟩)] : Logger)).map Prod.fst).Nodup ∧
      ("out", (⟨DEBUG, 0⟩ : LogFilter)) ∈ ([("out", ⟨DEBUG, 0⟩)] : Logger)) ∧
    ((∃ w ∈ (intLogf [("out", ⟨DEBUG, 0⟩)] INFO none t0 (ascii "m") []).writes, w.name = "out") ↔
      (⟨DEBUG, 0⟩ : LogFilter).level ≤ INFO) := by
  refine ⟨⟨by decide, by decide⟩, ?_⟩
  exact (c1_threshold_filtering [("out", ⟨DEBUG, 0⟩)] INFO none t0 (ascii "m") [] (ascii "m") []
    (by decide) "out" ⟨DEBUG, 0⟩ (by decide)).1

/-- C2 (amended): when an event is skipped, the format-style, closure
and structured internal paths perform no call-site resolution, no
formatting and no closure invocation and make no writes; the warning-,
error- and critical-level format-style entries, however, always format
their arguments eagerly — even when the call is skipped — though they
still resolve no call site and write nothing. -/
theorem c2_skip_fast_amended (log : Logger) (lvl : Int) (caller : Option GoStr)
    (now : GoTime) (format : GoStr) (args : List FmtArg) (message : GoStr)
    (filed : List LogField) (closure : Unit → GoStr) :
    (skipAll log lvl = true →
      intLogf log lvl caller now format args = { effects := [], writes := [] } ∧
      intLogc log lvl caller now closure = { effects := [], writes := [] } ∧
      intLogJson log lvl caller now message filed = { effects := [], writes := [] }) ∧
    (skipAll log WARNING = true →
      Warnf log caller now format args = { effects := [Effect.format], writes := [] }) ∧
    (skipAll log ERROR = true →
      Errorf log caller now format args = { effects := [Effect.format], writes := [] }) ∧
    (skipAll log CRITICAL = true →
      Criticalf log caller now format args = { effects := [Effect.format], writes := [] }) := by
  refine ⟨fun h => ⟨?_, ?_, ?_⟩, fun h => ?_, fun h => ?_, fun h => ?_⟩ <;>
    simp [intLogf, intLogc, intLogJson, Warnf, Errorf, Criticalf, h]

/-- Witness for C2's amended statement: one binding at CRITICAL skips
WARNING-level traffic. -/
theorem c2_witness :
    skipAll [("out", ⟨CRITICAL, 0⟩)] WARNING = true ∧
    Warnf [("out", ⟨CRITICAL, 0⟩)] none t0 (ascii "disk %s") [.str (ascii "full")] =
      { effects := [Effect.format], writes := [] } := by
  refine ⟨by decide, ?_⟩
  exact (c2_skip_fast_amended [("out", ⟨CRITICAL, 0⟩)] WARNING none t0 (ascii "disk %s")
    [.str (ascii "full")] (ascii "m") [] (fun _ => ascii "m")).2.1 (by decide)

/-- Counterexample to C2 as stated: a WARNING-level format-style call
below every threshold performs zero writes yet still formats its
arguments (the Sprintf runs eagerly at the call site). -/
theorem c2_counterexample :
    skipAll [("out", ⟨CRITICAL, 0⟩)] WARNING = true ∧
    (Warnf [("out", ⟨CRITICAL, 0⟩)] none t0 (ascii "disk %s") [.str (ascii "full")]).writes = [] ∧
    (Warnf [("out", ⟨CRITICAL, 0⟩)] none t0 (ascii "disk %s") [.str (ascii "full")]).effects =
      [Effect.format] := by
  refine ⟨by decide, by decide, by decide⟩

/-- C9 (amended): within one dispatch, the format-style and
closure-style paths pass the one shared record (allocation identity 0)
to every admitting binding; the structured path instead allocates a
fresh record per admitting binding — the records observed are
pairwise-distinct instances but carry identical contents (severity,
creation time, source, message, structured flag, field sequence). -/
theorem c9_same_event_amended (log : Logger) (lvl : Int) (caller : Option GoStr)
    (now : GoTime) (format : GoStr) (args : List FmtArg) (message : GoStr)
    (filed : List LogField) (closure : Unit → GoStr) :
    (∀ w ∈ (intLogf log lvl caller now format args).writes, w.recId = 0 ∧
      w.record = { level := lvl, created := now, source := caller.getD [],
                   message := if args.length > 0 then sprintf format args else format }) ∧
    (∀ w ∈ (intLogc log lvl caller now closure).writes, w.recId = 0 ∧
      w.record = { level := lvl, created := now, source := caller.getD [],
                   message := closure () }) ∧
    (∀ w ∈ (intLogJson log lvl caller now message filed).writes,
      w.record = { level := lvl, created := now, source := caller.getD [],
                   message := message, json := true, fields := filed }) ∧
    (((intLogJson log lvl caller now message filed).writes.map Write.recId).Nodup) := by
  refine ⟨?_, ?_, ?_, ?_⟩
  · intro w hw
    unfold intLogf at hw
    split_ifs at hw with h h2 <;>
      first
      | cases hw
      | · obtain ⟨nf, hnf, he⟩ := List.mem_map.mp hw
          rw [← he]
          simp_all
  · intro w hw
    unfold intLogc at hw
    split_ifs at hw with h <;>
      first
      | cases hw
      | · obtain ⟨nf, hnf, he⟩ := List.mem_map.mp hw
          rw [← he]
          simp
  · intro w hw
    unfold intLogJson at hw
    split_ifs at hw with h
    · cases hw
    · exact fanOutFresh_record _ 0 (admitted log lvl) w hw
  · unfold intLogJson
    split_ifs with h
    · simp
    · rw [fanOutFresh_recIds]
      exact List.nodup_range' 0 _

/-- Witness for C9's amended statement: two bindings both admitting an
INFO-level structured call. -/
theorem c9_witness :
    (∀ w ∈ (intLogJson [("a", ⟨FINEST, 0⟩), ("b", ⟨FINEST, 1⟩)] INFO none t0
        (ascii "m") []).writes,
      w.record = { level := INFO, created := t0, source := (none : Option GoStr).getD [],
                   message := ascii "m", json := true, fields := [] }) ∧
    (((intLogJson [("a", ⟨FINEST, 0⟩), ("b", ⟨FINEST, 1⟩)] INFO none t0
        (ascii "m") []).writes.map Write.recId).Nodup) :=
  ⟨(c9_same_event_amended [("a", ⟨FINEST, 0⟩), ("b", ⟨FINEST, 1⟩)] INFO none t0
      (ascii "m") [] (ascii "m") [] (fun _ => ascii "m")).2.2.1,
   (c9_same_event_amended [("a", ⟨FINEST, 0⟩), ("b", ⟨FINEST, 1⟩)] INFO none t0
      (ascii "m") [] (ascii "m") [] (fun _ => ascii "m")).2.2.2⟩

/-- Counterexample to C9 as stated: in the structured path with two
admitting bindings, the two `LogWrite` invocations do not receive the
same record instance — the loop allocates a fresh record per binding
(identities 0 and 1), though with equal contents. -/
theorem c9_counterexample :
    ¬ (∀ w1 ∈ (intLogJson [("a", ⟨FINEST, 0⟩), ("b", ⟨FINEST, 1⟩)] INFO none t0
          (ascii "m") []).writes,
       ∀ w2 ∈ (intLogJson [("a", ⟨FINEST, 0⟩), ("b", ⟨FINEST, 1⟩)] INFO none t0
          (ascii "m") []).writes, w1.recId = w2.recId) := by
  decide

/-! ## Helper characterizations: JSON field emission -/

/-- Bytes `AppendLeft` emits for a given flag state. -/
def leftBytes (left : Bool) : GoStr := if left then [0x22] else [0x2C, 0x22]

/-- Value bytes emitted for one field by its typed add operation (with
the source's slot conversions); `none` models a type-assertion panic,
and the unknown tag emits no value. -/
def valueBytes (f : LogField) : Option GoStr :=
  match f.type with
  | .BoolType =>
    match f.interface with
    | .goBool b => some (if b then ascii "true" else ascii "false")
    | _ => none
  | .IntType => some (intDec f.integer)
  | .Int32Type => some (intDec (wrapSigned 32 f.integer))
  | .Uint32Type => some (natDigits (toUnsigned 32 f.integer))
  | .Int64Type => some (intDec f.integer)
  | .Uint64Type => some (natDigits (toUnsigned 64 f.integer))
  | .Int8Type => some (intDec (wrapSigned 8 f.integer))
  | .Uint8Type => some (natDigits (toUnsigned 64 (wrapSigned 8 f.integer)))
  | .Float32Type =>
    match f.interface with
    | .goFloat32 r => some r
    | _ => none
  | .Float64Type =>
    match f.interface with
    | .goFloat64 r => some r
    | _ => none
  | .StringType => some ([0x22] ++ escapeSpec f.string ++ [0x22])
  | .InterfaceType => some (renderAny f.interface)
  | .UnknownType => none

/-- Bytes appended for one field (`AddTo`): separator, escaped key,
`": "` and the value bytes; the resulting flag state is cleared. -/
def emitField (left : Bool) (f : LogField) : Option (GoStr × Bool) :=
  if f.type = .UnknownType then some ([], left)
  else (valueBytes f).map fun vb =>
    (leftBytes left ++ escapeSpec f.key ++ ascii "\": " ++ vb, false)

/-- Bytes appended by the whole field loop, with the flag threaded. -/
def emitFields (left : Bool) : List LogField → Option (GoStr × Bool)
  | [] => some ([], left)
  | f :: fs =>
    match emitField left f with
    | none => none
    | some p =>
      match emitFields p.2 fs with
      | none => none
      | some q => some (p.1 ++ q.1, q.2)

theorem ascii_comma_quote : ascii ",\"" = [0x2C, 0x22] := rfl

theorem ascii_colon_sep : ascii "\": " = [0x22, 0x3A, 0x20] := rfl

theorem ascii_colon_sep_quote : ascii "\": \"" = [0x22, 0x3A, 0x20, 0x22] := rfl

theorem AppendLeft_eq (enc : JsonEncoder) :
    enc.AppendLeft = { buf := enc.buf ++ leftBytes enc.left, left := false } := by
  cases h : enc.left <;>
    simp [JsonEncoder.AppendLeft, JsonEncoder.appendString, leftBytes, h, ascii_comma_quote]

theorem AddTo_emitField (f : LogField) (enc : JsonEncoder) :
    f.AddTo enc = (emitField enc.left f).map fun p =>
      { buf := enc.buf ++ p.1, left := p.2 } := by
  rcases f with ⟨k, t, i, s, a⟩
  cases t <;> cases a <;>
    simp [LogField.AddTo, emitField, valueBytes, JsonEncoder.AddBool, JsonEncoder.AddInt,
      JsonEncoder.AddInt32, JsonEncoder.AddUint32, JsonEncoder.AddInt64, JsonEncoder.AddUint64,
      JsonEncoder.AddInt8, JsonEncoder.AddUint8, JsonEncoder.AddFloat32, JsonEncoder.AddFloat64,
      JsonEncoder.AddString, JsonEncoder.AddInterface, AppendLeft_eq, safeAddString_eq,
      JsonEncoder.appendString, JsonEncoder.appendByte, ascii_colon_sep, ascii_colon_sep_quote]

theorem addFields_emitFields (fs : List LogField) : ∀ (enc : JsonEncoder),
    addFields enc fs = (emitFields enc.left fs).map fun p =>
      { buf := enc.buf ++ p.1, left := p.2 } := by
  induction fs with
  | nil =>
    intro enc
    simp [addFields, emitFields]
  | cons f fs ih =>
    intro enc
    rw [addFields]
    by_cases hu : f.type = .UnknownType
    · rw [if_pos hu, ih enc, emitFields, emitField, if_pos hu]
      cases he : emitFields enc.left fs <;> simp [he]
    · rw [if_neg hu, AddTo_emitField, emitFields]
      cases hf : emitField enc.left f with
      | none => simp [hf]
      | some p =>
        simp only [hf, Option.map_some']
        rw [ih]
        cases he : emitFields p.2 fs <;> simp [he]

/-- The fixed leading keys of one JSON wire line: time, message (raw),
level code, file — each value between bare quotes. -/
def jsonHead (record : LogRecord) (lv : GoStr) : GoStr :=
  [0x7B] ++ ascii "\"time\":" ++ [0x22] ++ timeFmt record.created ++ [0x22] ++
  ascii ",\"message\":" ++ [0x22] ++ record.message ++ [0x22] ++
  ascii ",\"level\":" ++ [0x22] ++ lv ++ [0x22] ++
  ascii ",\"file\":" ++ [0x22] ++ record.source ++ [0x22]

theorem encodeJson_eq (enc : JsonEncoder) (record : LogRecord) :
    encodeJson enc record =
      (levelString record.level).bind fun lv =>
        (emitFields enc.left record.fields).map fun p =>
          enc.buf ++ jsonHead record lv ++ p.1 ++ [0x7D, 0x0A] := by
  rw [encodeJson]
  cases hl : levelString record.level with
  | none => simp
  | some lv =>
    simp only [Option.some_bind, JsonEncoder.appendString, JsonEncoder.appendByte]
    rw [addFields_emitFields]
    cases he : emitFields enc.left record.fields with
    | none => simp [he]
    | some p => simp [he, jsonHead]

set_option maxRecDepth 100000 in
/-- C5: scenario D — a structured INFO event with message "start" and
fields (port: int32 8080), (ok: bool true) renders in JSON mode as the
single newline-terminated line
`%x7b"time":...,"message":"start","level":"INFO","file":...,"port": 8080,"ok": true%x7d`;
in general the encoder emits the fixed leading keys time, message,
level, file, then one key/value pair per field in sequence order, with
unknown-kind fields omitted. -/
theorem c5_json_wire_line :
    (encodeJson newJsonEncoder
        { level := INFO, created := t0, source := ascii "a.go:1", message := ascii "start",
          json := true, fields := [mkInt32 (ascii "port") 8080, mkBool (ascii "ok") true] } =
      some ([0x7B] ++
        ascii "\"time\":\"2024-01-02 03:04:05.06789\",\"message\":\"start\",\"level\":\"INFO\",\"file\":\"a.go:1\",\"port\": 8080,\"ok\": true" ++
        [0x7D, 0x0A])) ∧
    (∀ (enc : JsonEncoder) (record : LogRecord),
      encodeJson enc record =
        (levelString record.level).bind fun lv =>
          (emitFields enc.left record.fields).map fun p =>
            enc.buf ++ jsonHead record lv ++ p.1 ++ [0x7D, 0x0A]) ∧
    (∀ (left : Bool) (k : GoStr) (i : Int) (s : GoStr) (a : GoAny) (fs : List LogField),
      emitFields left
          ({ key := k, type := .UnknownType, integer := i, string := s, interface := a } :: fs) =
        emitFields left fs) := by
  refine ⟨by decide, encodeJson_eq, ?_⟩
  intro left k i s a fs
  rw [emitFields, emitField, if_pos rfl]
  cases he : emitFields left fs <;> simp [he]

/-- Claim-side variant of `EncodeJson` for the round-trip claim,
following the spec's words: identical except that the message value
passes through the JSON escaping path (`safeAddString`) between its
quotes. -/
def encodeJsonClaim (enc : JsonEncoder) (record : LogRecord) : Option GoStr :=
  let e1 := (enc.appendByte 0x7B).appendString (ascii "\"time\":")
  let e2 := e1.appendString ([0x22] ++ timeFmt record.created ++ [0x22])
  let e3 := (((e2.appendString (ascii ",\"message\":")).appendByte 0x22).safeAddString
    record.message).appendByte 0x22
  match levelString record.level with
  | none => none
  | some lv =>
    let e4 := (e3.appendString (ascii ",\"level\":")).appendString ([0x22] ++ lv ++ [0x22])
    let e5 := (e4.appendString (ascii ",\"file\":")).appendString
      ([0x22] ++ record.source ++ [0x22])
    match addFields e5 record.fields with
    | none => none
    | some e6 => some (((e6.appendByte 0x7D).appendByte 0x0A).buf)

set_option maxRecDepth 100000 in
/-- Counterexample to C3 as stated: for the message consisting of one
double-quote byte, the JSON-mode encoding does not send the message
through the escaping path — the emitted line embeds the quote raw, so
the `message` field value cannot JSON-decode back to the original. -/
theorem c3_counterexample :
    encodeJson newJsonEncoder
        { level := INFO, created := t0, source := [], message := [0x22], json := true,
          fields := [] } ≠
      encodeJsonClaim newJsonEncoder
        { level := INFO, created := t0, source := [], message := [0x22], json := true,
          fields := [] } := by
  decide

/-- C3 (amended): the JSON-mode encoding embeds the message verbatim
between bare quotes — no escaping is applied to it (only field keys
and text field values pass through the escaping path), so the decoded
`message` value equals the original only when the message needs no
escaping. -/
theorem c3_message_embedded_raw (enc : JsonEncoder) (record : LogRecord) :
    encodeJson enc record =
      (levelString record.level).bind fun lv =>
        (emitFields enc.left record.fields).map fun p =>
          (enc.buf ++ [0x7B] ++ ascii "\"time\":" ++ [0x22] ++ timeFmt record.created ++ [0x22] ++
            ascii ",\"message\":" ++ [0x22]) ++ record.message ++
          ([0x22] ++ ascii ",\"level\":" ++ [0x22] ++ lv ++ [0x22] ++ ascii ",\"file\":" ++
            [0x22] ++ record.source ++ [0x22] ++ p.1 ++ [0x7D, 0x0A]) := by
  rw [encodeJson_eq]
  cases hl : levelString record.level with
  | none => simp
  | some lv =>
    simp only [Option.some_bind]
    cases he : emitFields enc.left record.fields with
    | none => simp
    | some p => simp [jsonHead]

/-! ## Helper characterizations: text mode -/

/-- The placeholder the `EncodeString` loop appends for one field. -/
def placeholderOf (f : LogField) : GoStr :=
  match f.type with
  | .Int32Type | .Uint32Type | .Int8Type | .Uint8Type | .Int64Type | .Uint64Type | .IntType =>
    [0x25, 0x64]
  | .StringType => [0x25, 0x73]
  | .BoolType => [0x25, 0x74]
  | _ => [0x25, 0x76]

/-- The argument the `EncodeString` loop pushes for one field. -/
def argOf (f : LogField) : FmtArg :=
  match f.type with
  | .Int32Type | .Uint32Type | .Int8Type | .Uint8Type | .Int64Type | .Uint64Type | .IntType =>
    .int f.integer
  | .StringType => .str f.string
  | _ => .any f.interface

/-- The format text accumulated by the loop over the fields. -/
def fmtOf : List LogField → GoStr
  | [] => []
  | f :: fs =>
    if f.type = .UnknownType then fmtOf fs
    else f.key ++ [0x3A] ++ placeholderOf f ++ [0x20] ++ fmtOf fs

/-- The argument list accumulated by the loop over the fields. -/
def argsOf : List LogField → List FmtArg
  | [] => []
  | f :: fs => if f.type = .UnknownType then argsOf fs else argOf f :: argsOf fs

/-- The rendered text value of one field in text mode: integer kinds in
decimal (the raw int64 slot), text as-is, and the other kinds via the
matching verb's rendering. -/
def textValue (f : LogField) : GoStr :=
  match f.type with
  | .Int32Type | .Uint32Type | .Int8Type | .Uint8Type | .Int64Type | .Uint64Type | .IntType =>
    intDec f.integer
  | .StringType => f.string
  | .BoolType => verbRender 0x74 (.any f.interface)
  | _ => verbRender 0x76 (.any f.interface)

/-- The rendered `key:value ` groups of the text line, in field order,
unknown-kind fields skipped; note each group carries a trailing
space. -/
def textFields : List LogField → GoStr
  | [] => []
  | f :: fs =>
    if f.type = .UnknownType then textFields fs
    else f.key ++ [0x3A] ++ textValue f ++ [0x20] ++ textFields fs

theorem encodeString_fold (fs : List LogField) : ∀ (e : JsonEncoder) (as : List FmtArg),
    fs.foldl encodeStringStep (e, as) = ({ e with buf := e.buf ++ fmtOf fs }, as ++ argsOf fs) := by
  induction fs with
  | nil =>
    intro e as
    simp [fmtOf, argsOf]
  | cons f fs ih =>
    intro e as
    rw [List.foldl_cons]
    by_cases hu : f.type = .UnknownType
    · rw [show encodeStringStep (e, as) f = (e, as) by simp [encodeStringStep, hu]]
      rw [ih, fmtOf, argsOf, if_pos hu, if_pos hu]
    · rcases f with ⟨k, t, i, s, a⟩
      cases t <;>
        simp_all [encodeStringStep, fmtOf, argsOf, placeholderOf, argOf,
          JsonEncoder.appendString, JsonEncoder.appendByte, ascii, ih]

theorem sprintf_literal : ∀ (a : GoStr), (∀ b ∈ a, b ≠ 0x25) →
    ∀ (rest : GoStr) (args : List FmtArg), sprintf (a ++ rest) args = a ++ sprintf rest args := by
  intro a
  induction a with
  | nil =>
    intro _ rest args
    rfl
  | cons b a ih =>
    intro ha rest args
    have hb := ha b (List.mem_cons_self b a)
    have step : sprintf (b :: (a ++ rest)) args = b :: sprintf (a ++ rest) args := by
      rw [sprintf.eq_def]
      simp [hb]
    rw [List.cons_append, step, ih (fun x hx => ha x (List.mem_cons_of_mem b hx)) rest args]
    rfl

theorem sprintf_verb (v : Nat) (a : FmtArg) (rest : GoStr) (args : List FmtArg) :
    sprintf (0x25 :: v :: rest) (a :: args) = verbRender v a ++ sprintf rest args := by
  rw [sprintf.eq_def]
  simp

theorem sprintf_space (rest : GoStr) (args : List FmtArg) :
    sprintf (0x20 :: rest) args = 0x20 :: sprintf rest args := by
  rw [sprintf.eq_def]
  simp

theorem sprintf_field_step (k : GoStr) (hk : ∀ b ∈ k, b ≠ 0x25) (v : Nat) (a : FmtArg)
    (rest : GoStr) (args : List FmtArg) :
    sprintf (k ++ [0x3A] ++ [0x25, v] ++ [0x20] ++ rest) (a :: args) =
      k ++ [0x3A] ++ verbRender v a ++ [0x20] ++ sprintf rest args := by
  have h1 : k ++ [0x3A] ++ [0x25, v] ++ [0x20] ++ rest =
      (k ++ [0x3A]) ++ (0x25 :: v :: (0x20 :: rest)) := by
    simp
  have h2 : ∀ b ∈ k ++ [0x3A], b ≠ 0x25 := by
    intro b hb
    rcases List.mem_append.mp hb with h | h
    · exact hk b h
    · simp at h
      omega
  rw [h1, sprintf_literal (k ++ [0x3A]) h2, sprintf_verb, sprintf_space]
  simp

theorem sprintf_textFields : ∀ (fs : List LogField),
    (∀ f ∈ fs, ∀ b ∈ f.key, b ≠ 0x25) →
    sprintf (fmtOf fs) (argsOf fs) = textFields fs := by
  intro fs
  induction fs with
  | nil =>
    intro _
    rfl
  | cons f fs ih =>
    intro hk
    have hks : ∀ g ∈ fs, ∀ b ∈ g.key, b ≠ 0x25 :=
      fun g hg => hk g (List.mem_cons_of_mem f hg)
    by_cases hu : f.type = .UnknownType
    · rw [fmtOf, argsOf, textFields, if_pos hu, if_pos hu, if_pos hu]
      exact ih hks
    · rw [fmtOf, argsOf, textFields, if_neg hu, if_neg hu, if_neg hu]
      have hkf : ∀ b ∈ f.key, b ≠ 0x25 := hk f (List.mem_cons_self f fs)
      rcases f with ⟨k, t, i, s, a⟩
      cases t <;>
        first
        | exact absurd rfl hu
        | (simp only [placeholderOf, argOf, textValue]
           rw [sprintf_field_step k hkf _ _ _ _, ih hks]
           try simp [verbRender])

/-- C6 (amended): in text mode an event with no fields renders as the
message verbatim; with fields (and no `%` byte in the message or the
keys, which the one-pass Sprintf would otherwise consume) it renders
as the message, a space, then `key:value ` per non-unknown field in
sequence order — each group, including the last, carrying a trailing
space, so the line ends in one extra space beyond the claimed form. -/
theorem c6_text_line_amended (record : LogRecord)
    (hmsg : ∀ b ∈ record.message, b ≠ 0x25)
    (hkeys : ∀ f ∈ record.fields, ∀ b ∈ f.key, b ≠ 0x25) :
    encodeString newJsonEncoder record =
      if record.fields.length = 0 then record.message
      else record.message ++ [0x20] ++ textFields record.fields := by
  cases hf : record.fields with
  | nil => simp [encodeString, hf]
  | cons f fs =>
    rw [encodeString, hf]
    rw [if_neg (by simp)]
    dsimp only
    rw [encodeString_fold]
    rw [if_neg (by simp)]
    simp only [JsonEncoder.appendString, JsonEncoder.appendByte, newJsonEncoder,
      List.nil_append, List.append_assoc]
    rw [sprintf_literal record.message hmsg, List.singleton_append, sprintf_space]
    rw [sprintf_textFields (f :: fs) (hf ▸ hkeys)]
    simp

set_option maxRecDepth 100000 in
/-- Counterexample to C6 as stated: the text rendering of message "m"
with the single int32 field (k: 5) is "m k:5 " — with a trailing
space — not the claimed exact form "m k:5". -/
theorem c6_counterexample :
    encodeString newJsonEncoder
        { level := INFO, created := t0, source := [], message := ascii "m",
          fields := [mkInt32 (ascii "k") 5] } = ascii "m k:5 " ∧
    encodeString newJsonEncoder
        { level := INFO, created := t0, source := [], message := ascii "m",
          fields := [mkInt32 (ascii "k") 5] } ≠ ascii "m k:5" :=
  ⟨by decide, by decide⟩

set_option maxRecDepth 100000 in
/-- Witness for C6's amended statement at a percent-free message and
key. -/
theorem c6_witness :
    ((∀ b ∈ (ascii "m" : GoStr), b ≠ 0x25) ∧
      (∀ f ∈ [mkInt32 (ascii "k") 5], ∀ b ∈ f.key, b ≠ 0x25)) ∧
    encodeString newJsonEncoder
        { level := INFO, created := t0, source := [], message := ascii "m",
          fields := [mkInt32 (ascii "k") 5] } =
      if ([mkInt32 (ascii "k") 5] : List LogField).length = 0 then ascii "m"
      else ascii "m" ++ [0x20] ++ textFields [mkInt32 (ascii "k") 5] :=
  ⟨⟨by decide, by decide⟩,
   c6_text_line_amended
     { level := INFO, created := t0, source := [], message := ascii "m",
       fields := [mkInt32 (ascii "k") 5] } (by decide) (by decide)⟩
